import Mathlib

/-!
Verification development for the UDS index-session subsystem
(`src/utils/uds/indexSession.h`).

The repository ships only the header: the enum `IndexSessionState`, the
`struct indexSession`, and the declarations plus doc comments of the
operations.  The implementing `.c` file is absent, so every operation body
below is modelled from the specification's description of that operation
(each such definition carries a doc comment starting `Modelled from the
spec:`), while the data declarations (`IndexSessionState` with
discriminants 1, 2, 3, and the session structure holding an atomically
updated state and a grid pointer) follow the header itself.

The registry is process-wide mutable state in C; here it is passed
explicitly as a `World` value.  Concurrency is modelled by interleaving:
an arbitrary finite sequence of subsystem operations (`Op`) acts on the
world, and concurrency claims become statements over all such sequences.
Freeing of the grid and of the session structure is recorded in ledgers
(`freedGrids`, `freedSessions`), so "freed exactly once" and
"never double-frees" are statable.
-/

/-- The three-state lifecycle, from `indexSession.h` lines 30-34
(`IS_INIT = 1`, `IS_READY = 2`, `IS_DISABLED = 3`). -/
inductive IndexSessionState where
  | IS_INIT
  | IS_READY
  | IS_DISABLED
deriving DecidableEq, Repr, BEq

/-- The numeric discriminant each state is stored as in the `Atomic32`
field, with the values assigned in the header: 1, 2, 3. -/
def IndexSessionState.toNat : IndexSessionState → Nat
  | .IS_INIT => 1
  | .IS_READY => 2
  | .IS_DISABLED => 3

/-- Status codes.  Modelled from the spec: "a generic success value and an
open set of error codes (not-found, not-usable/wrong-state,
allocation-failure, underlying-I/O-failure)"; the wrong-state class is
split into the INIT error ("not yet initialized/loaded") and the DISABLED
error ("session disabled/closing"), which the spec requires to be
distinct.  Success is `Except.ok`; these are the error codes. -/
inductive UdsError where
  | notFound
  | uninitialized
  | disabled
  | allocFailure
  | gridFailure (code : Nat)
deriving DecidableEq, Repr, BEq

/-- Modelled from the spec: the external Grid collaborator, abstracted by
its observable behaviour.  `saveFails` / `setFreqFails` record the outcome
the fallible `save` / `setCheckpointFrequency` calls will report, and
`frequency` records the last checkpoint-frequency value forwarded to it. -/
structure Grid where
  saveFails : Option UdsError
  setFreqFails : Option UdsError
  frequency : Nat
deriving DecidableEq, Repr, BEq

/-- Modelled from the spec: `Grid.save() -> Success|Error`. -/
def Grid.save (g : Grid) : Except UdsError Unit :=
  match g.saveFails with
  | some e => .error e
  | none => .ok ()

/-- Modelled from the spec: the Grid's own checkpoint-frequency setter,
which either fails or records the forwarded value. -/
def Grid.setCheckpointFrequency (g : Grid) (freq : Nat) :
    Grid × Except UdsError Unit :=
  match g.setFreqFails with
  | some e => (g, .error e)
  | none => ({ g with frequency := freq }, .ok ())

/-- `struct indexSession` from `indexSession.h` lines 39-43: a session
identifier (held by the embedded `Session`), the atomically updated
`IndexSessionState` value, and the owned `Grid` pointer (`none` = null,
i.e. not yet loaded). -/
structure IndexSession where
  id : Nat
  state : IndexSessionState
  grid : Option Grid
deriving DecidableEq, Repr, BEq

/-- Modelled from the spec: `checkIndexSession` "returns success only if
state == READY; returns a distinct error for INIT (not yet
initialized/loaded) versus DISABLED (session disabled/closing)". -/
def checkIndexSession (s : IndexSession) : Except UdsError Unit :=
  match s.state with
  | .IS_READY => .ok ()
  | .IS_INIT => .error .uninitialized
  | .IS_DISABLED => .error .disabled

/-- Modelled from the spec: atomic read of the session's state field. -/
def getIndexSessionState (s : IndexSession) : IndexSessionState :=
  s.state

/-- Modelled from the spec: atomic write of the session's state field; the
state machine itself "does not validate transition legality" (the
monotonicity invariant is a documented caller precondition). -/
def setIndexSessionState (s : IndexSession) (st : IndexSessionState) :
    IndexSession :=
  { s with state := st }

/-- Modelled from the spec: the process-wide `SessionRegistry` plus the
free ledgers used to observe teardown.  `sessions` maps each live session
(keyed by its `id`) to its registry refcount; `nextId` is the fresh-ID
counter; `freedGrids` and `freedSessions` record, by session ID, which
grids and session structures have been freed. -/
structure World where
  sessions : List (IndexSession × Nat)
  nextId : Nat
  freedGrids : List Nat
  freedSessions : List Nat
deriving DecidableEq, Repr, BEq

/-- Registry lookup: the entry (session and refcount) stored under `id`. -/
def findEntry (w : World) (id : Nat) : Option (IndexSession × Nat) :=
  w.sessions.find? (fun e => e.1.id == id)

/-- Apply `f` to the registry entry stored under `id` (no-op when the ID
is absent). -/
def updateEntry (w : World) (id : Nat)
    (f : IndexSession × Nat → IndexSession × Nat) : World :=
  { w with sessions := w.sessions.map (fun e => if e.1.id == id then f e else e) }

/-- Remove the registry entry stored under `id`. -/
def removeEntry (w : World) (id : Nat) : World :=
  { w with sessions := w.sessions.filter (fun e => !(e.1.id == id)) }

/-- Modelled from the spec: `makeEmptyIndexSession` "allocates a new
IndexSession with state INIT and no grid; assigns a fresh unique ID;
inserts it into the table; fails with an allocation error if resources
cannot be obtained", with "refcount effectively 1 (held by the creator)".
`allocOk` is the allocation oracle (false = resource exhaustion). -/
def makeEmptyIndexSession (w : World) (allocOk : Bool) :
    World × Except UdsError (Nat × IndexSession) :=
  if allocOk then
    let s : IndexSession := { id := w.nextId, state := .IS_INIT, grid := none }
    ({ w with sessions := (s, 1) :: w.sessions, nextId := w.nextId + 1 },
     .ok (w.nextId, s))
  else
    (w, .error .allocFailure)

/-- Modelled from the spec: `getIndexSession(id)` "looks up `id`; fails
with not-found if absent; otherwise increments the entry's refcount and
returns a borrowed reference". -/
def getIndexSession (w : World) (id : Nat) :
    World × Except UdsError IndexSession :=
  match findEntry w id with
  | none => (w, .error .notFound)
  | some (s, _) => (updateEntry w id (fun e => (e.1, e.2 + 1)), .ok s)

/-- Modelled from the spec: `releaseIndexSession` "decrements the
refcount; never destroys the session itself; fails loudly (a
programming-contract violation) if called without a matching prior
acquisition".  The contract violation is `none`. -/
def releaseIndexSession (w : World) (id : Nat) : Option World :=
  match findEntry w id with
  | none => none
  | some (_, rc) =>
      if rc = 0 then none
      else some (updateEntry w id (fun e => (e.1, e.2 - 1)))

/-- Modelled from the spec: step 1 of `saveAndFreeIndexSession` — the
atomic commit that moves the session to DISABLED and removes its ID from
the lookup table, making it unresolvable for later lookups. -/
def teardownCommit (w : World) (id : Nat) : World :=
  removeEntry w id

/-- Modelled from the spec: `saveAndFreeIndexSession` — (1) transition to
DISABLED and remove the registry entry, (2) wait for the refcount drain
(the blocking wait is modelled as having completed), (3) save the grid,
propagating any failure as the overall result while still proceeding, and
(4) free the grid and the session structure.  A second call on an
already-destroyed ID finds nothing and fails with not-found. -/
def saveAndFreeIndexSession (w : World) (id : Nat) :
    World × Except UdsError Unit :=
  match findEntry w id with
  | none => (w, .error .notFound)
  | some (s, _) =>
      let sD := setIndexSessionState s .IS_DISABLED
      let w1 := teardownCommit w id
      let saveRes : Except UdsError Unit :=
        match sD.grid with
        | none => .ok ()
        | some g => g.save
      let w2 :=
        match sD.grid with
        | none => w1
        | some _ => { w1 with freedGrids := id :: w1.freedGrids }
      ({ w2 with freedSessions := id :: w2.freedSessions }, saveRes)

/-- Modelled from the spec: `setCheckpointFrequency(session, frequency)`
"first validates usability via `checkIndexSession` (must be READY); on
success, delegates to the Grid's own frequency setter and propagates its
result unchanged.  No local state is held."  The public handle is the
numeric session ID.  A READY session owns a grid by the spec's data-model
invariant; the null-grid branch is unreachable under it. -/
def udsSetCheckpointFrequency (w : World) (id : Nat) (freq : Nat) :
    World × Except UdsError Unit :=
  match findEntry w id with
  | none => (w, .error .notFound)
  | some (s, _) =>
      match checkIndexSession s with
      | .error e => (w, .error e)
      | .ok _ =>
          match s.grid with
          | none => (w, .error .notFound)
          | some g =>
              let r := g.setCheckpointFrequency freq
              (updateEntry w id (fun e => ({ e.1 with grid := some r.1 }, e.2)),
               r.2)

/-- Basic registry well-formedness: every live session's ID is below the
fresh-ID counter. -/
def wfWorld (w : World) : Prop :=
  ∀ e ∈ w.sessions, e.1.id < w.nextId

instance (w : World) : Decidable (wfWorld w) :=
  List.decidableBAll _ w.sessions

/-- Whether a state write respects the documented monotonicity
precondition of `setIndexSessionState`: `INIT -> READY` is allowed,
`{INIT, READY} -> DISABLED` is allowed, `DISABLED` is terminal, and a
write of the current state is a no-op. -/
def legalTransition : IndexSessionState → IndexSessionState → Bool
  | .IS_INIT, _ => true
  | .IS_READY, .IS_INIT => false
  | .IS_READY, _ => true
  | .IS_DISABLED, .IS_DISABLED => true
  | .IS_DISABLED, _ => false

/-- Write the state of the session registered under `id` (what an
external caller holding a reference does through the session pointer). -/
def writeSessionState (w : World) (id : Nat) (st : IndexSessionState) :
    World :=
  updateEntry w id (fun e => (setIndexSessionState e.1 st, e.2))

/-- One operation of the subsystem's public surface, acting on the
registry: creation, acquisition, release, teardown, a state write by the
(external) load/policy layer, and the checkpoint-frequency passthrough. -/
inductive Op where
  | make (allocOk : Bool)
  | get (id : Nat)
  | release (id : Nat)
  | teardown (id : Nat)
  | setState (id : Nat) (st : IndexSessionState)
  | setFreq (id : Nat) (freq : Nat)
deriving DecidableEq, Repr, BEq

/-- Modelled from the spec: the effect of one subsystem operation on the
registry world.  A failed `releaseIndexSession` (contract violation)
leaves the world unchanged, and `setState` writes only when the caller
respects the documented monotonic-transition precondition of
`setIndexSessionState`. -/
def stepOp (w : World) : Op → World
  | .make allocOk => (makeEmptyIndexSession w allocOk).1
  | .get id => (getIndexSession w id).1
  | .release id => (releaseIndexSession w id).getD w
  | .teardown id => (saveAndFreeIndexSession w id).1
  | .setState id st =>
      match findEntry w id with
      | none => w
      | some e => if legalTransition e.1.state st then writeSessionState w id st else w
  | .setFreq id freq => (udsSetCheckpointFrequency w id freq).1

/-- A finite interleaving of subsystem operations applied in order. -/
def run (w : World) (ops : List Op) : World :=
  ops.foldl stepOp w

/-- An acquisition (`getIndexSession`) or a release
(`releaseIndexSession`) on one fixed session ID. -/
inductive GROp where
  | acquire
  | release
deriving DecidableEq, Repr, BEq

/-- Run a sequence of acquisitions and releases on the session registered
under `id`; `none` marks a release contract violation. -/
def runGR (w : World) (id : Nat) : List GROp → Option World
  | [] => some w
  | .acquire :: rest => runGR (getIndexSession w id).1 id rest
  | .release :: rest =>
      match releaseIndexSession w id with
      | none => none
      | some w1 => runGR w1 id rest

/-- `balanced d ops`: with `d` acquisitions currently outstanding, every
release in `ops` is preceded by a matching acquisition. -/
def balanced : Nat → List GROp → Prop
  | _, [] => True
  | d, .acquire :: rest => balanced (d + 1) rest
  | d, .release :: rest => 0 < d ∧ balanced (d - 1) rest

instance instDecidableBalanced : ∀ d ops, Decidable (balanced d ops)
  | _, [] => by unfold balanced; exact inferInstance
  | d, .acquire :: rest => by
      unfold balanced; exact instDecidableBalanced (d + 1) rest
  | d, .release :: rest => by
      unfold balanced
      have := instDecidableBalanced (d - 1) rest
      exact inferInstance

/-- Number of acquisitions in a get/release sequence. -/
def countAcq (ops : List GROp) : Nat :=
  ops.countP (fun o => o == .acquire)

/-- Number of releases in a get/release sequence. -/
def countRel (ops : List GROp) : Nat :=
  ops.countP (fun o => o == .release)

/-- The session registered under `id` is either absent or DISABLED. -/
def disabledAt (w : World) (id : Nat) : Prop :=
  ∀ e, findEntry w id = some e → e.1.state = .IS_DISABLED

instance (w : World) (id : Nat) : Decidable (disabledAt w id) := by
  unfold disabledAt
  cases findEntry w id with
  | none => exact .isTrue (by intro e h; cases h)
  | some e =>
      exact decidable_of_iff (e.1.state = .IS_DISABLED)
        ⟨fun h e' he' => by cases he'; exact h, fun h => h e rfl⟩

lemma findEntry_eq_of_sessions (w1 w2 : World) (id : Nat)
    (h : w1.sessions = w2.sessions) : findEntry w1 id = findEntry w2 id := by
  unfold findEntry; rw [h]

lemma findEntry_make (w : World) (allocOk : Bool) (id : Nat)
    (hne : id ≠ w.nextId) :
    findEntry ((makeEmptyIndexSession w allocOk).1) id = findEntry w id := by
  cases allocOk with
  | false => rfl
  | true =>
      show List.find? _ (_ :: w.sessions) = _
      have hb : (w.nextId == id) = false := by
        simp only [beq_eq_false_iff_ne]
        exact fun hc => hne hc.symm
      simp [List.find?_cons, hb, findEntry]

lemma getIndexSession_fst (w : World) (id : Nat) :
    (getIndexSession w id).1 = w ∨
      (getIndexSession w id).1 = updateEntry w id (fun e => (e.1, e.2 + 1)) := by
  cases hfind : findEntry w id with
  | none => left; simp [getIndexSession, hfind]
  | some e => right; simp [getIndexSession, hfind]

lemma releaseIndexSession_getD (w : World) (id : Nat) :
    (releaseIndexSession w id).getD w = w ∨
      (releaseIndexSession w id).getD w =
        updateEntry w id (fun e => (e.1, e.2 - 1)) := by
  cases hfind : findEntry w id with
  | none => left; simp [releaseIndexSession, hfind]
  | some e =>
      by_cases hrc : e.2 = 0
      · left; simp [releaseIndexSession, hfind, hrc]
      · right; simp [releaseIndexSession, hfind, hrc]

lemma findEntry_updateEntry_self (w : World) (id : Nat)
    (f : IndexSession × Nat → IndexSession × Nat)
    (hf : ∀ e, (f e).1.id = e.1.id) :
    findEntry (updateEntry w id f) id = (findEntry w id).map f := by
  show (w.sessions.map _).find? _ = (w.sessions.find? _).map f
  induction w.sessions with
  | nil => rfl
  | cons a t ih =>
      simp only [List.map_cons]
      by_cases h : (a.1.id == id) = true
      · have hfb : ((f a).1.id == id) = true := by rw [hf a]; exact h
        simp [List.find?_cons, h, hfb, -List.find?_map]
      · simpa [List.find?_cons, h, -List.find?_map] using ih

lemma findEntry_updateEntry_ne (w : World) (id id' : Nat)
    (f : IndexSession × Nat → IndexSession × Nat)
    (hf : ∀ e, (f e).1.id = e.1.id) (hne : id ≠ id') :
    findEntry (updateEntry w id' f) id = findEntry w id := by
  show (w.sessions.map _).find? _ = w.sessions.find? _
  induction w.sessions with
  | nil => rfl
  | cons a t ih =>
      simp only [List.map_cons]
      by_cases h : (a.1.id == id') = true
      · have hid' : a.1.id = id' := beq_iff_eq.mp h
        have hb : (a.1.id == id) = false := by
          simp only [beq_eq_false_iff_ne, hid']
          exact fun hc => hne hc.symm
        have hfb : ((f a).1.id == id) = false := by rw [hf a]; exact hb
        simpa [List.find?_cons, h, hb, hfb, -List.find?_map] using ih
      · by_cases h2 : (a.1.id == id) = true
        · simp [List.find?_cons, h, h2, -List.find?_map]
        · simpa [List.find?_cons, h, h2, -List.find?_map] using ih

lemma findEntry_removeEntry_self (w : World) (id : Nat) :
    findEntry (removeEntry w id) id = none := by
  show (w.sessions.filter _).find? _ = none
  induction w.sessions with
  | nil => rfl
  | cons a t ih =>
      by_cases h : (a.1.id == id) = true
      · simp [List.filter_cons, List.find?_cons, h, ih]
      · simp [List.filter_cons, List.find?_cons, h, ih]

lemma findEntry_removeEntry_ne (w : World) (id id' : Nat) (hne : id ≠ id') :
    findEntry (removeEntry w id') id = findEntry w id := by
  show (w.sessions.filter _).find? _ = w.sessions.find? _
  induction w.sessions with
  | nil => rfl
  | cons a t ih =>
      by_cases h : (a.1.id == id') = true
      · have hid' : a.1.id = id' := beq_iff_eq.mp h
        have hb : (a.1.id == id) = false := by
          simp only [beq_eq_false_iff_ne, hid']
          exact fun hc => hne hc.symm
        simp [List.filter_cons, List.find?_cons, h, hb, ih]
      · by_cases h2 : (a.1.id == id) = true
        · simp [List.filter_cons, List.find?_cons, h, h2]
        · simp [List.filter_cons, List.find?_cons, h, h2, ih]

lemma findEntry_mem (w : World) (id : Nat) (e : IndexSession × Nat)
    (h : findEntry w id = some e) : e ∈ w.sessions ∧ e.1.id = id := by
  refine ⟨List.mem_of_find?_eq_some h, ?_⟩
  have := List.find?_some h
  simpa using this

lemma wfWorld_fresh (w : World) (hw : wfWorld w) :
    findEntry w w.nextId = none := by
  cases hfind : findEntry w w.nextId with
  | none => rfl
  | some e =>
      obtain ⟨hmem, hid⟩ := findEntry_mem w w.nextId e hfind
      exact absurd (hid ▸ hw e hmem) (lt_irrefl _)

lemma wfWorld_updateEntry (w : World) (id : Nat)
    (f : IndexSession × Nat → IndexSession × Nat)
    (hf : ∀ e, (f e).1.id = e.1.id) (hw : wfWorld w) :
    wfWorld (updateEntry w id f) := by
  intro e he
  obtain ⟨a, ha, rfl⟩ := List.mem_map.mp he
  by_cases h : a.1.id = id
  · simpa [h, hf a] using hw a ha
  · simpa [h] using hw a ha

lemma wfWorld_removeEntry (w : World) (id : Nat) (hw : wfWorld w) :
    wfWorld (removeEntry w id) := by
  intro e he
  exact hw e (List.mem_of_mem_filter he)

lemma saveAndFree_fst_sessions (w : World) (id : Nat) :
    ((saveAndFreeIndexSession w id).1).sessions =
      (match findEntry w id with
       | none => w.sessions
       | some _ => (removeEntry w id).sessions) := by
  cases hfind : findEntry w id with
  | none => simp [saveAndFreeIndexSession, hfind]
  | some e =>
      cases hg : e.1.grid <;>
        simp [saveAndFreeIndexSession, hfind, teardownCommit, setIndexSessionState, hg]

lemma saveAndFree_fst_nextId (w : World) (id : Nat) :
    ((saveAndFreeIndexSession w id).1).nextId = w.nextId := by
  cases hfind : findEntry w id with
  | none => simp [saveAndFreeIndexSession, hfind]
  | some e =>
      cases hg : e.1.grid <;>
        simp [saveAndFreeIndexSession, hfind, teardownCommit, removeEntry,
          setIndexSessionState, hg]

lemma setFreq_fst (w : World) (id freq : Nat) :
    (udsSetCheckpointFrequency w id freq).1 = w ∨
      ∃ g', (udsSetCheckpointFrequency w id freq).1 =
        updateEntry w id (fun e => ({ e.1 with grid := some g' }, e.2)) := by
  cases hfind : findEntry w id with
  | none => left; simp [udsSetCheckpointFrequency, hfind]
  | some e =>
      cases hchk : checkIndexSession e.1 with
      | error e' => left; simp [udsSetCheckpointFrequency, hfind, hchk]
      | ok u =>
          cases hg : e.1.grid with
          | none => left; simp [udsSetCheckpointFrequency, hfind, hchk, hg]
          | some g =>
              right
              exact ⟨(g.setCheckpointFrequency freq).1,
                by simp [udsSetCheckpointFrequency, hfind, hchk, hg]⟩

lemma stepOp_nextId (w : World) (op : Op) :
    w.nextId ≤ (stepOp w op).nextId := by
  cases op with
  | make allocOk =>
      cases allocOk with
      | false => exact le_refl _
      | true => exact Nat.le_succ _
  | get id =>
      rcases getIndexSession_fst w id with h | h <;> rw [stepOp, h] <;>
        exact le_refl _
  | release id =>
      rcases releaseIndexSession_getD w id with h | h <;> rw [stepOp, h] <;>
        exact le_refl _
  | teardown id =>
      rw [stepOp, saveAndFree_fst_nextId]
  | setState id st =>
      rw [stepOp]
      cases hfind : findEntry w id with
      | none => exact le_refl _
      | some e =>
          by_cases hleg : legalTransition e.1.state st = true
          · simp only [hleg, if_true]; exact le_refl _
          · simp only [hleg, if_false]; exact le_refl _
  | setFreq id freq =>
      rcases setFreq_fst w id freq with h | ⟨g', h⟩ <;> rw [stepOp, h] <;>
        exact le_refl _

lemma wfWorld_stepOp (w : World) (op : Op) (hw : wfWorld w) :
    wfWorld (stepOp w op) := by
  cases op with
  | make allocOk =>
      cases allocOk with
      | false => exact hw
      | true =>
          intro e he
          rcases List.mem_cons.mp he with rfl | hmem
          · exact Nat.lt_succ_self _
          · exact Nat.lt_succ_of_lt (hw e hmem)
  | get id =>
      rcases getIndexSession_fst w id with h | h <;> rw [stepOp, h]
      · exact hw
      · exact wfWorld_updateEntry w id _ (fun e => rfl) hw
  | release id =>
      rcases releaseIndexSession_getD w id with h | h <;> rw [stepOp, h]
      · exact hw
      · exact wfWorld_updateEntry w id _ (fun e => rfl) hw
  | teardown id =>
      intro e he
      rw [stepOp] at he ⊢
      rw [saveAndFree_fst_nextId]
      have hs := saveAndFree_fst_sessions w id
      cases hfind : findEntry w id with
      | none =>
          rw [hfind] at hs
          rw [hs] at he
          exact hw e he
      | some e' =>
          rw [hfind] at hs
          rw [hs] at he
          exact hw e (List.mem_of_mem_filter he)
  | setState id st =>
      rw [stepOp]
      cases hfind : findEntry w id with
      | none => exact hw
      | some e =>
          by_cases hleg : legalTransition e.1.state st = true
          · simp only [hleg, if_true]
            exact wfWorld_updateEntry w id _ (fun e => rfl) hw
          · simp only [hleg, if_false]; exact hw
  | setFreq id freq =>
      rcases setFreq_fst w id freq with h | ⟨g', h⟩ <;> rw [stepOp, h]
      · exact hw
      · exact wfWorld_updateEntry w id _ (fun e => rfl) hw

lemma disabledAt_updateEntry (w : World) (id id' : Nat)
    (f : IndexSession × Nat → IndexSession × Nat)
    (hfid : ∀ e, (f e).1.id = e.1.id)
    (hfst : ∀ e, (f e).1.state = e.1.state)
    (hd : disabledAt w id) : disabledAt (updateEntry w id' f) id := by
  intro e he
  by_cases hii : id = id'
  · subst hii
    rw [findEntry_updateEntry_self w id f hfid] at he
    rcases Option.map_eq_some'.mp he with ⟨e0, he0, rfl⟩
    rw [hfst e0]
    exact hd e0 he0
  · rw [findEntry_updateEntry_ne w id id' f hfid hii] at he
    exact hd e he

lemma findEntry_stepOp_none (w : World) (op : Op) (id : Nat)
    (hw : wfWorld w) (hlt : id < w.nextId)
    (habs : findEntry w id = none) : findEntry (stepOp w op) id = none := by
  cases op with
  | make allocOk =>
      rw [stepOp, findEntry_make w allocOk id (Nat.ne_of_lt hlt)]
      exact habs
  | get id' =>
      rcases getIndexSession_fst w id' with h | h <;> rw [stepOp, h]
      · exact habs
      · by_cases hii : id = id'
        · subst hii
          rw [findEntry_updateEntry_self w id
            (fun e => (e.1, e.2 + 1)) (fun e => rfl), habs]
          rfl
        · rw [findEntry_updateEntry_ne w id id'
            (fun e => (e.1, e.2 + 1)) (fun e => rfl) hii]
          exact habs
  | release id' =>
      rcases releaseIndexSession_getD w id' with h | h <;> rw [stepOp, h]
      · exact habs
      · by_cases hii : id = id'
        · subst hii
          rw [findEntry_updateEntry_self w id
            (fun e => (e.1, e.2 - 1)) (fun e => rfl), habs]
          rfl
        · rw [findEntry_updateEntry_ne w id id'
            (fun e => (e.1, e.2 - 1)) (fun e => rfl) hii]
          exact habs
  | teardown id' =>
      have hs := saveAndFree_fst_sessions w id'
      cases hfind : findEntry w id' with
      | none =>
          rw [hfind] at hs
          show ((saveAndFreeIndexSession w id').1).sessions.find? _ = none
          rw [hs]
          exact habs
      | some e' =>
          rw [hfind] at hs
          show ((saveAndFreeIndexSession w id').1).sessions.find? _ = none
          rw [hs]
          by_cases hii : id = id'
          · subst hii
            exact findEntry_removeEntry_self w id
          · rw [show (removeEntry w id').sessions.find?
                  (fun e => e.1.id == id) = findEntry (removeEntry w id') id
                from rfl]
            rw [findEntry_removeEntry_ne w id id' hii]
            exact habs
  | setState id' st =>
      rw [stepOp]
      cases hfind : findEntry w id' with
      | none => exact habs
      | some e =>
          by_cases hleg : legalTransition e.1.state st = true
          · simp only [hleg, if_true]
            by_cases hii : id = id'
            · subst hii
              rw [hfind] at habs
              cases habs
            · rw [writeSessionState,
                findEntry_updateEntry_ne w id id'
                  (fun e => (setIndexSessionState e.1 st, e.2)) (fun e => rfl) hii]
              exact habs
          · simp only [hleg, if_false]
            exact habs
  | setFreq id' freq =>
      rcases setFreq_fst w id' freq with h | ⟨g', h⟩ <;> rw [stepOp, h]
      · exact habs
      · by_cases hii : id = id'
        · subst hii
          rw [findEntry_updateEntry_self w id
            (fun e => ({ e.1 with grid := some g' }, e.2)) (fun e => rfl), habs]
          rfl
        · rw [findEntry_updateEntry_ne w id id'
            (fun e => ({ e.1 with grid := some g' }, e.2)) (fun e => rfl) hii]
          exact habs

lemma disabledAt_stepOp (w : World) (op : Op) (id : Nat)
    (hlt : id < w.nextId) (hd : disabledAt w id) :
    disabledAt (stepOp w op) id := by
  cases op with
  | make allocOk =>
      intro e he
      rw [stepOp, findEntry_make w allocOk id (Nat.ne_of_lt hlt)] at he
      exact hd e he
  | get id' =>
      rcases getIndexSession_fst w id' with h | h <;> rw [stepOp, h]
      · exact hd
      · exact disabledAt_updateEntry w id id' _ (fun e => rfl) (fun e => rfl) hd
  | release id' =>
      rcases releaseIndexSession_getD w id' with h | h <;> rw [stepOp, h]
      · exact hd
      · exact disabledAt_updateEntry w id id' _ (fun e => rfl) (fun e => rfl) hd
  | teardown id' =>
      intro e he
      have hs := saveAndFree_fst_sessions w id'
      rw [stepOp] at he
      cases hfind : findEntry w id' with
      | none =>
          rw [hfind] at hs
          have hs2 : ((saveAndFreeIndexSession w id').1).sessions = w.sessions := hs
          have he' : findEntry w id = some e := by
            show w.sessions.find? _ = some e
            rw [← hs2]
            exact he
          exact hd e he'
      | some e' =>
          rw [hfind] at hs
          have hs2 : ((saveAndFreeIndexSession w id').1).sessions =
              (removeEntry w id').sessions := hs
          have he' : findEntry (removeEntry w id') id = some e := by
            show (removeEntry w id').sessions.find? _ = some e
            rw [← hs2]
            exact he
          by_cases hii : id = id'
          · subst hii
            rw [findEntry_removeEntry_self w id] at he'
            cases he'
          · rw [findEntry_removeEntry_ne w id id' hii] at he'
            exact hd e he'
  | setState id' st =>
      rw [stepOp]
      cases hfind : findEntry w id' with
      | none => exact hd
      | some e =>
          by_cases hleg : legalTransition e.1.state st = true
          · simp only [hleg, if_true]
            by_cases hii : id = id'
            · subst hii
              have hst : e.1.state = .IS_DISABLED := hd e hfind
              have hstD : st = .IS_DISABLED := by
                rw [hst] at hleg
                cases st <;> simp [legalTransition] at hleg <;> rfl
              intro e' he'
              rw [writeSessionState, findEntry_updateEntry_self w id
                (fun e => (setIndexSessionState e.1 st, e.2)) (fun e => rfl)] at he'
              rcases Option.map_eq_some'.mp he' with ⟨e0, _, rfl⟩
              exact hstD
            · intro e' he'
              rw [writeSessionState, findEntry_updateEntry_ne w id id'
                (fun e => (setIndexSessionState e.1 st, e.2)) (fun e => rfl) hii] at he'
              exact hd e' he'
          · simp only [hleg, if_false]
            exact hd
  | setFreq id' freq =>
      rcases setFreq_fst w id' freq with h | ⟨g', h⟩ <;> rw [stepOp, h]
      · exact hd
      · exact disabledAt_updateEntry w id id' _ (fun e => rfl) (fun e => rfl) hd

lemma wfWorld_run (w : World) (ops : List Op) (hw : wfWorld w) :
    wfWorld (run w ops) := by
  induction ops generalizing w with
  | nil => exact hw
  | cons op rest ih => exact ih (stepOp w op) (wfWorld_stepOp w op hw)

lemma nextId_le_run (w : World) (ops : List Op) :
    w.nextId ≤ (run w ops).nextId := by
  induction ops generalizing w with
  | nil => exact le_refl _
  | cons op rest ih =>
      exact le_trans (stepOp_nextId w op) (ih (stepOp w op))

lemma findEntry_run_none (w : World) (ops : List Op) (id : Nat)
    (hw : wfWorld w) (hlt : id < w.nextId)
    (habs : findEntry w id = none) : findEntry (run w ops) id = none := by
  induction ops generalizing w with
  | nil => exact habs
  | cons op rest ih =>
      exact ih (stepOp w op) (wfWorld_stepOp w op hw)
        (lt_of_lt_of_le hlt (stepOp_nextId w op))
        (findEntry_stepOp_none w op id hw hlt habs)

lemma disabledAt_run (w : World) (ops : List Op) (id : Nat)
    (hw : wfWorld w) (hlt : id < w.nextId)
    (hd : disabledAt w id) : disabledAt (run w ops) id := by
  induction ops generalizing w with
  | nil => exact hd
  | cons op rest ih =>
      exact ih (stepOp w op) (wfWorld_stepOp w op hw)
        (lt_of_lt_of_le hlt (stepOp_nextId w op))
        (disabledAt_stepOp w op id hlt hd)

lemma countAcq_acquire (ops : List GROp) :
    countAcq (.acquire :: ops) = countAcq ops + 1 := by
  simp [countAcq, List.countP_cons]
  rfl

lemma countAcq_release (ops : List GROp) :
    countAcq (.release :: ops) = countAcq ops := by
  simp [countAcq, List.countP_cons]
  rfl

lemma countRel_acquire (ops : List GROp) :
    countRel (.acquire :: ops) = countRel ops := by
  simp [countRel, List.countP_cons]
  rfl

lemma countRel_release (ops : List GROp) :
    countRel (.release :: ops) = countRel ops + 1 := by
  simp [countRel, List.countP_cons]
  rfl

lemma runGR_balanced (ops : List GROp) :
    ∀ (w : World) (id : Nat) (s : IndexSession) (rc0 d : Nat),
    findEntry w id = some (s, rc0) → balanced d ops → d ≤ rc0 →
    ∃ w' rc', runGR w id ops = some w' ∧ findEntry w' id = some (s, rc') ∧
      rc' + countRel ops = rc0 + countAcq ops ∧
      w'.freedSessions = w.freedSessions ∧ w'.freedGrids = w.freedGrids := by
  induction ops with
  | nil =>
      intro w id s rc0 d hfind _ _
      exact ⟨w, rc0, rfl, hfind, by simp [countAcq, countRel], rfl, rfl⟩
  | cons o rest ih =>
      intro w id s rc0 d hfind hbal hd
      cases o with
      | acquire =>
          have hbal' : balanced (d + 1) rest := hbal
          have hstep : (getIndexSession w id).1 =
              updateEntry w id (fun e => (e.1, e.2 + 1)) := by
            simp [getIndexSession, hfind]
          have hfind1 : findEntry ((getIndexSession w id).1) id =
              some (s, rc0 + 1) := by
            rw [hstep, findEntry_updateEntry_self w id
              (fun e => (e.1, e.2 + 1)) (fun e => rfl), hfind]
            rfl
          obtain ⟨w', rc', hrun, hfind', hcount, hfs, hfg⟩ :=
            ih _ id s (rc0 + 1) (d + 1) hfind1 hbal' (by omega)
          refine ⟨w', rc', hrun, hfind', ?_, ?_, ?_⟩
          · rw [countRel_acquire, countAcq_acquire]
            omega
          · rw [hfs, hstep]
            rfl
          · rw [hfg, hstep]
            rfl
      | release =>
          obtain ⟨hdpos, hbal'⟩ := hbal
          have hrc : ¬ rc0 = 0 := by omega
          have hrel : releaseIndexSession w id =
              some (updateEntry w id (fun e => (e.1, e.2 - 1))) := by
            simp [releaseIndexSession, hfind, hrc]
          have hfind1 : findEntry (updateEntry w id (fun e => (e.1, e.2 - 1))) id =
              some (s, rc0 - 1) := by
            rw [findEntry_updateEntry_self w id
              (fun e => (e.1, e.2 - 1)) (fun e => rfl), hfind]
            rfl
          obtain ⟨w', rc', hrun, hfind', hcount, hfs, hfg⟩ :=
            ih _ id s (rc0 - 1) (d - 1) hfind1 hbal' (by omega)
          refine ⟨w', rc', ?_, hfind', ?_, hfs, hfg⟩
          · show (match releaseIndexSession w id with
              | none => none
              | some w1 => runGR w1 id rest) = some w'
            rw [hrel]
            exact hrun
          · rw [countRel_release, countAcq_release]
            omega

/-- C1: `checkIndexSession` succeeds exactly on READY sessions; INIT gives
the "not yet initialized/loaded" error, DISABLED gives the distinct
"session disabled/closing" error. -/
theorem claim_C1 (s : IndexSession) :
    (checkIndexSession s = .ok () ↔ getIndexSessionState s = .IS_READY) ∧
    (getIndexSessionState s = .IS_INIT →
      checkIndexSession s = .error .uninitialized) ∧
    (getIndexSessionState s = .IS_DISABLED →
      checkIndexSession s = .error .disabled) ∧
    UdsError.uninitialized ≠ UdsError.disabled := by
  refine ⟨?_, ?_, ?_, by decide⟩ <;>
    cases hst : s.state <;>
      simp [checkIndexSession, getIndexSessionState, hst]

/-- Witness for C1 at a concrete INIT session. -/
theorem claim_C1_witness :
    checkIndexSession ⟨0, .IS_INIT, none⟩ = .error .uninitialized :=
  (claim_C1 ⟨0, .IS_INIT, none⟩).2.1 rfl

/-- C10: writing a state and reading it back returns exactly the written
state, and the stored discriminant is always one of the three enum
values 1, 2, 3. -/
theorem claim_C10 (s : IndexSession) (st : IndexSessionState) :
    getIndexSessionState (setIndexSessionState s st) = st ∧
    ((setIndexSessionState s st).state.toNat = 1 ∨
     (setIndexSessionState s st).state.toNat = 2 ∨
     (setIndexSessionState s st).state.toNat = 3) := by
  refine ⟨rfl, ?_⟩
  cases st <;> simp [setIndexSessionState, IndexSessionState.toNat]

/-- C4: a successful `makeEmptyIndexSession` returns a session in state
INIT with no grid and a fresh unique ID registered with refcount 1, on
which `getIndexSessionState` reads INIT and `checkIndexSession` fails
with the not-initialized error; on resource exhaustion it fails with the
allocation error. -/
theorem claim_C4 (w : World) (hw : wfWorld w) :
    makeEmptyIndexSession w false = (w, .error .allocFailure) ∧
    ∃ s : IndexSession,
      (makeEmptyIndexSession w true).2 = .ok (w.nextId, s) ∧
      s.id = w.nextId ∧ s.state = .IS_INIT ∧ s.grid = none ∧
      findEntry w w.nextId = none ∧
      findEntry ((makeEmptyIndexSession w true).1) w.nextId = some (s, 1) ∧
      getIndexSessionState s = .IS_INIT ∧
      checkIndexSession s = .error .uninitialized := by
  refine ⟨rfl, ⟨w.nextId, .IS_INIT, none⟩, rfl, rfl, rfl, rfl,
    wfWorld_fresh w hw, ?_, rfl, rfl⟩
  show List.find? _ (_ :: w.sessions) = _
  simp [List.find?_cons]

/-- Witness for C4 on the empty registry. -/
theorem claim_C4_witness :
    makeEmptyIndexSession ⟨[], 0, [], []⟩ false =
      (⟨[], 0, [], []⟩, .error .allocFailure) :=
  (claim_C4 ⟨[], 0, [], []⟩ (by decide)).1

/-- C5: `getIndexSession` fails with not-found when the ID is absent; when
present (in any state, INIT included) it returns the registered session
and increments that entry's refcount by exactly one. -/
theorem claim_C5 (w : World) (id : Nat) :
    (findEntry w id = none →
      getIndexSession w id = (w, .error .notFound)) ∧
    (∀ s rc, findEntry w id = some (s, rc) →
      ∃ w', getIndexSession w id = (w', .ok s) ∧
        findEntry w' id = some (s, rc + 1)) := by
  constructor
  · intro h
    simp [getIndexSession, h]
  · intro s rc h
    refine ⟨updateEntry w id (fun e => (e.1, e.2 + 1)), ?_, ?_⟩
    · simp [getIndexSession, h]
    · rw [findEntry_updateEntry_self w id
        (fun e => (e.1, e.2 + 1)) (fun e => rfl), h]
      rfl

/-- Witness for C5: absent ID on the empty registry, and a present
just-created INIT session whose refcount goes from 1 to 2. -/
theorem claim_C5_witness :
    getIndexSession ⟨[], 0, [], []⟩ 5 = (⟨[], 0, [], []⟩, .error .notFound) ∧
    ∃ w', getIndexSession ⟨[(⟨0, .IS_INIT, none⟩, 1)], 1, [], []⟩ 0 =
        (w', .ok ⟨0, .IS_INIT, none⟩) ∧
      findEntry w' 0 = some (⟨0, .IS_INIT, none⟩, 2) :=
  ⟨(claim_C5 ⟨[], 0, [], []⟩ 5).1 rfl,
   (claim_C5 ⟨[(⟨0, .IS_INIT, none⟩, 1)], 1, [], []⟩ 0).2
     ⟨0, .IS_INIT, none⟩ 1 rfl⟩

/-- C2: when the Grid's save fails during `saveAndFreeIndexSession`, the
save failure is the overall result, yet the grid is freed, the session
structure is freed, and the registry entry is fully removed. -/
theorem claim_C2 (w : World) (id : Nat) (s : IndexSession) (rc : Nat)
    (g : Grid) (err : UdsError)
    (hfind : findEntry w id = some (s, rc)) (hg : s.grid = some g)
    (hsave : g.save = .error err) :
    ∃ w', saveAndFreeIndexSession w id = (w', .error err) ∧
      findEntry w' id = none ∧
      id ∈ w'.freedGrids ∧ id ∈ w'.freedSessions := by
  refine ⟨⟨(removeEntry w id).sessions, w.nextId,
    id :: w.freedGrids, id :: w.freedSessions⟩, ?_, ?_, ?_, ?_⟩
  · simp [saveAndFreeIndexSession, hfind, setIndexSessionState, hg, hsave,
      teardownCommit, removeEntry]
  · exact findEntry_removeEntry_self w id
  · exact List.mem_cons_self _ _
  · exact List.mem_cons_self _ _

/-- Witness for C2: a READY session owning a grid whose save reports an
I/O failure. -/
theorem claim_C2_witness :
    ∃ w', saveAndFreeIndexSession
        ⟨[(⟨0, .IS_READY, some ⟨some (.gridFailure 5), none, 0⟩⟩, 1)],
          1, [], []⟩ 0 = (w', .error (.gridFailure 5)) ∧
      findEntry w' 0 = none ∧ 0 ∈ w'.freedGrids ∧ 0 ∈ w'.freedSessions :=
  claim_C2 ⟨[(⟨0, .IS_READY, some ⟨some (.gridFailure 5), none, 0⟩⟩, 1)],
      1, [], []⟩ 0 ⟨0, .IS_READY, some ⟨some (.gridFailure 5), none, 0⟩⟩ 1
    ⟨some (.gridFailure 5), none, 0⟩ (.gridFailure 5) rfl rfl rfl

/-- C3: after a completed `saveAndFreeIndexSession`, a second teardown of
the same ID fails with not-found and returns the world unchanged — no
double free, no state corruption, no silent success. -/
theorem claim_C3 (w : World) (id : Nat) (e : IndexSession × Nat)
    (hfind : findEntry w id = some e) :
    saveAndFreeIndexSession ((saveAndFreeIndexSession w id).1) id =
      ((saveAndFreeIndexSession w id).1, .error .notFound) := by
  have hs := saveAndFree_fst_sessions w id
  rw [hfind] at hs
  have hs2 : ((saveAndFreeIndexSession w id).1).sessions =
      (removeEntry w id).sessions := hs
  have habs : findEntry ((saveAndFreeIndexSession w id).1) id = none := by
    show ((saveAndFreeIndexSession w id).1).sessions.find? _ = none
    rw [hs2]
    exact findEntry_removeEntry_self w id
  generalize hW : (saveAndFreeIndexSession w id).1 = W at habs ⊢
  simp [saveAndFreeIndexSession, habs]

/-- Witness for C3 on a just-created INIT session. -/
theorem claim_C3_witness :
    saveAndFreeIndexSession
        ((saveAndFreeIndexSession
          ⟨[(⟨0, .IS_INIT, none⟩, 1)], 1, [], []⟩ 0).1) 0 =
      ((saveAndFreeIndexSession
          ⟨[(⟨0, .IS_INIT, none⟩, 1)], 1, [], []⟩ 0).1, .error .notFound) :=
  claim_C3 ⟨[(⟨0, .IS_INIT, none⟩, 1)], 1, [], []⟩ 0
    (⟨0, .IS_INIT, none⟩, 1) rfl

/-- C6: a single legal release decrements the refcount by exactly one and
never destroys the session; along any acquire/release sequence in which
each release is preceded by a matching acquisition, no contract violation
occurs, the entry survives with `rc' + releases = rc0 + acquires` (so the
count never drops below its baseline, in particular never below zero),
and nothing is freed. -/
theorem claim_C6 (w : World) (id : Nat) (s : IndexSession) (rc0 : Nat)
    (hfind : findEntry w id = some (s, rc0)) :
    (0 < rc0 → ∃ w', releaseIndexSession w id = some w' ∧
      findEntry w' id = some (s, rc0 - 1) ∧
      w'.freedSessions = w.freedSessions ∧ w'.freedGrids = w.freedGrids) ∧
    (∀ ops : List GROp, balanced 0 ops →
      ∃ w' rc', runGR w id ops = some w' ∧
        findEntry w' id = some (s, rc') ∧
        rc' + countRel ops = rc0 + countAcq ops ∧
        w'.freedSessions = w.freedSessions ∧
        w'.freedGrids = w.freedGrids) := by
  constructor
  · intro hpos
    have hrc : ¬ rc0 = 0 := by omega
    refine ⟨updateEntry w id (fun e => (e.1, e.2 - 1)), ?_, ?_, rfl, rfl⟩
    · simp [releaseIndexSession, hfind, hrc]
    · rw [findEntry_updateEntry_self w id
        (fun e => (e.1, e.2 - 1)) (fun e => rfl), hfind]
      rfl
  · intro ops hbal
    exact runGR_balanced ops w id s rc0 0 hfind hbal (Nat.zero_le _)

/-- Witness for C6: one decrement from refcount 1, and the balanced
sequence acquire-release-acquire ending at refcount 2. -/
theorem claim_C6_witness :
    (∃ w', releaseIndexSession
        ⟨[(⟨0, .IS_INIT, none⟩, 1)], 1, [], []⟩ 0 = some w' ∧
      findEntry w' 0 = some (⟨0, .IS_INIT, none⟩, 0) ∧
      w'.freedSessions = ([] : List Nat) ∧ w'.freedGrids = ([] : List Nat)) ∧
    (∃ w' rc', runGR ⟨[(⟨0, .IS_INIT, none⟩, 1)], 1, [], []⟩ 0
        [.acquire, .release, .acquire] = some w' ∧
      findEntry w' 0 = some (⟨0, .IS_INIT, none⟩, rc') ∧
      rc' + countRel [.acquire, .release, .acquire] =
        1 + countAcq [.acquire, .release, .acquire] ∧
      w'.freedSessions = ([] : List Nat) ∧ w'.freedGrids = ([] : List Nat)) :=
  ⟨(claim_C6 ⟨[(⟨0, .IS_INIT, none⟩, 1)], 1, [], []⟩ 0
      ⟨0, .IS_INIT, none⟩ 1 rfl).1 (by decide),
   (claim_C6 ⟨[(⟨0, .IS_INIT, none⟩, 1)], 1, [], []⟩ 0
      ⟨0, .IS_INIT, none⟩ 1 rfl).2 [.acquire, .release, .acquire] (by decide)⟩

/-- C7: `udsSetCheckpointFrequency` first validates via
`checkIndexSession` and fails with exactly that check's error when the
session is not READY (leaving the world unchanged); on a READY session it
forwards the frequency unchanged to the Grid's own setter, propagates the
setter's result unchanged, and leaves the session's id, state and
refcount untouched. -/
theorem claim_C7 (w : World) (id freq : Nat) (s : IndexSession) (rc : Nat)
    (hfind : findEntry w id = some (s, rc)) :
    (∀ e, checkIndexSession s = .error e →
      udsSetCheckpointFrequency w id freq = (w, .error e)) ∧
    (s.state ≠ .IS_READY → ∃ e, checkIndexSession s = .error e ∧
      udsSetCheckpointFrequency w id freq = (w, .error e)) ∧
    (∀ g, s.grid = some g → s.state = .IS_READY →
      ∃ w', udsSetCheckpointFrequency w id freq =
          (w', (g.setCheckpointFrequency freq).2) ∧
        findEntry w' id =
          some ({ s with grid := some (g.setCheckpointFrequency freq).1 }, rc) ∧
        (g.setFreqFails = none →
          (g.setCheckpointFrequency freq).1.frequency = freq ∧
          (g.setCheckpointFrequency freq).2 = .ok ())) := by
  refine ⟨?_, ?_, ?_⟩
  · intro e he
    simp [udsSetCheckpointFrequency, hfind, he]
  · intro hne
    cases hst : s.state with
    | IS_READY => exact absurd hst hne
    | IS_INIT =>
        have he : checkIndexSession s = .error .uninitialized := by
          simp [checkIndexSession, hst]
        exact ⟨.uninitialized, he,
          by simp [udsSetCheckpointFrequency, hfind, he]⟩
    | IS_DISABLED =>
        have he : checkIndexSession s = .error .disabled := by
          simp [checkIndexSession, hst]
        exact ⟨.disabled, he, by simp [udsSetCheckpointFrequency, hfind, he]⟩
  · intro g hg hready
    have hchk : checkIndexSession s = .ok () := by
      simp [checkIndexSession, hready]
    refine ⟨updateEntry w id
      (fun e => ({ e.1 with grid := some (g.setCheckpointFrequency freq).1 },
        e.2)), ?_, ?_, ?_⟩
    · simp [udsSetCheckpointFrequency, hfind, hchk, hg]
    · rw [findEntry_updateEntry_self w id
        (fun e => ({ e.1 with grid := some (g.setCheckpointFrequency freq).1 },
          e.2)) (fun e => rfl), hfind]
      rfl
    · intro h0
      simp [Grid.setCheckpointFrequency, h0]

/-- Witness for C7: forwarding frequency 100 through a READY session whose
grid setter succeeds. -/
theorem claim_C7_witness :
    ∃ w', udsSetCheckpointFrequency
        ⟨[(⟨0, .IS_READY, some ⟨none, none, 0⟩⟩, 1)], 1, [], []⟩ 0 100 =
        (w', ((⟨none, none, 0⟩ : Grid).setCheckpointFrequency 100).2) ∧
      findEntry w' 0 = some
        (⟨0, .IS_READY,
          some ((⟨none, none, 0⟩ : Grid).setCheckpointFrequency 100).1⟩, 1) ∧
      (((⟨none, none, 0⟩ : Grid).setFreqFails = none) →
        ((⟨none, none, 0⟩ : Grid).setCheckpointFrequency 100).1.frequency
            = 100 ∧
          ((⟨none, none, 0⟩ : Grid).setCheckpointFrequency 100).2 = .ok ()) :=
  (claim_C7 ⟨[(⟨0, .IS_READY, some ⟨none, none, 0⟩⟩, 1)], 1, [], []⟩ 0 100
      ⟨0, .IS_READY, some ⟨none, none, 0⟩⟩ 1 rfl).2.2
    ⟨none, none, 0⟩ rfl rfl

/-- C8 counterexample: `setIndexSessionState` is an operation of this
subsystem, and — exactly as the spec warns, it "does not itself validate
transition legality" — applying it to a DISABLED session with argument
READY does return the session to READY, so the claim as stated (NO
subsequent operation returns a DISABLED session to INIT or READY) fails
at this concrete input. -/
theorem claim_C8_counterexample :
    getIndexSessionState
      (setIndexSessionState ⟨0, .IS_DISABLED, none⟩ .IS_READY) =
      .IS_READY := rfl

/-- C8 (amended): once a registered session is DISABLED, every finite
sequence of subsystem operations whose state writes respect the
documented monotonic-transition precondition of `setIndexSessionState`
leaves it DISABLED (or removed), and while it remains registered every
`checkIndexSession` on it fails with the disabled error. -/
theorem claim_C8 (w : World) (id : Nat) (s : IndexSession) (rc : Nat)
    (hw : wfWorld w) (hfind : findEntry w id = some (s, rc))
    (hdis : s.state = .IS_DISABLED) :
    ∀ (ops : List Op) (s' : IndexSession) (rc' : Nat),
      findEntry (run w ops) id = some (s', rc') →
      s'.state = .IS_DISABLED ∧
        checkIndexSession s' = .error .disabled := by
  have hlt : id < w.nextId := by
    obtain ⟨hmem, hid⟩ := findEntry_mem w id (s, rc) hfind
    exact hid ▸ hw _ hmem
  have hd : disabledAt w id := by
    intro e he
    rw [hfind] at he
    cases he
    exact hdis
  intro ops s' rc' hfind'
  have hst : s'.state = .IS_DISABLED :=
    disabledAt_run w ops id hw hlt hd (s', rc') hfind'
  exact ⟨hst, by simp [checkIndexSession, hst]⟩

/-- Witness for C8: a DISABLED session survives an (illegal, hence
ignored) write back to READY, an acquisition, and a fresh creation, still
DISABLED and still failing `checkIndexSession` with the disabled error. -/
theorem claim_C8_witness :
    (⟨0, .IS_DISABLED, none⟩ : IndexSession).state = .IS_DISABLED ∧
      checkIndexSession ⟨0, .IS_DISABLED, none⟩ = .error .disabled :=
  claim_C8 ⟨[(⟨0, .IS_DISABLED, none⟩, 1)], 1, [], []⟩ 0
    ⟨0, .IS_DISABLED, none⟩ 1 (by decide) rfl rfl
    [.setState 0 .IS_READY, .get 0, .make true]
    ⟨0, .IS_DISABLED, none⟩ 2 (by decide)

/-- C9: once the DISABLED-and-remove commit (step 1) of
`saveAndFreeIndexSession` has executed, every `getIndexSession` for that
ID that begins afterwards — after any further finite sequence of
subsystem operations — fails with not-found and returns no reference. -/
theorem claim_C9 (w : World) (id : Nat) (e : IndexSession × Nat)
    (hw : wfWorld w) (hfind : findEntry w id = some e) :
    ∀ ops : List Op,
      getIndexSession (run (teardownCommit w id) ops) id =
        (run (teardownCommit w id) ops, .error .notFound) := by
  have hlt : id < w.nextId := by
    obtain ⟨hmem, hid⟩ := findEntry_mem w id e hfind
    exact hid ▸ hw _ hmem
  have hw1 : wfWorld (teardownCommit w id) := wfWorld_removeEntry w id hw
  have habs : findEntry (teardownCommit w id) id = none :=
    findEntry_removeEntry_self w id
  intro ops
  have habs' := findEntry_run_none (teardownCommit w id) ops id hw1 hlt habs
  simp [getIndexSession, habs']

/-- Witness for C9: after the commit removes session 0, a creation and a
lookup later, `getIndexSession 0` still fails with not-found. -/
theorem claim_C9_witness :
    getIndexSession
        (run (teardownCommit
          ⟨[(⟨0, .IS_READY, some ⟨none, none, 0⟩⟩, 1)], 1, [], []⟩ 0)
          [.make true, .get 0]) 0 =
      (run (teardownCommit
          ⟨[(⟨0, .IS_READY, some ⟨none, none, 0⟩⟩, 1)], 1, [], []⟩ 0)
          [.make true, .get 0], .error .notFound) :=
  claim_C9 ⟨[(⟨0, .IS_READY, some ⟨none, none, 0⟩⟩, 1)], 1, [], []⟩ 0
    (⟨0, .IS_READY, some ⟨none, none, 0⟩⟩, 1) (by decide) rfl
    [.make true, .get 0]
